import Mathlib

/-!
# TrustMona scan server (`src/server.js`): scoring, labelling and response shaping

A shallow embedding of the two scan handlers `POST /scan-text` and `POST /scan`, of the two
model-signal helpers `aiAnalyzeText` and `aiAnalyze`, and of the JavaScript primitives they
use (binary64 arithmetic, property access, truthiness, spreading, `String.prototype.replace`
with the scheme pattern, `split`).

Everything outside the program (the WHOIS service, the completion service, `JSON.parse`,
the clock, `Date` parsing, `toFixed`, the string coercions of the language) is a field of
`World`; a handler is a function of the world and of the request body.
-/

namespace TrustMona

/-! ## Numbers -/

/-- Round a rational to the nearest integer, ties to the even one (the IEEE 754 default). -/
def roundHalfEven (q : ℚ) : ℤ :=
  let f := ⌊q⌋
  let d := q - f
  if d < 1 / 2 then f else if 1 / 2 < d then f + 1 else if f % 2 = 0 then f else f + 1

/-- Spacing of the binary64 values around `q`: 52 fraction bits below the leading bit,
exponent not below the one of the smallest normal number. -/
def ulp64 (q : ℚ) : ℚ := (2 : ℚ) ^ (max (Int.log 2 |q|) (-1022) - 52)

/-- The binary64 value nearest to `q`, exponent range unbounded above. -/
def fl64 (q : ℚ) : ℚ := roundHalfEven (q / ulp64 q) * ulp64 q

/-- A JavaScript Number. A finite value is carried as the rational it denotes; the two
zeros are not told apart (they compare equal and serialise alike). -/
inductive JSNum
  | nan
  | negInf
  | posInf
  | fin (q : ℚ)
deriving DecidableEq

namespace JSNum

/-- Result of an arithmetic operation whose exact value is `q`: rounded to binary64,
overflowing to an infinity. -/
def ofExact (q : ℚ) : JSNum :=
  let r := fl64 q
  if (2 : ℚ) ^ 1024 ≤ r then posInf else if r ≤ -(2 : ℚ) ^ 1024 then negInf else fin r

/-- The operator `a + b` on Numbers. -/
def add : JSNum → JSNum → JSNum
  | nan, _ => nan
  | _, nan => nan
  | posInf, negInf => nan
  | negInf, posInf => nan
  | posInf, _ => posInf
  | _, posInf => posInf
  | negInf, _ => negInf
  | _, negInf => negInf
  | fin a, fin b => ofExact (a + b)

/-- The operator `a - b` on Numbers. -/
def sub : JSNum → JSNum → JSNum
  | nan, _ => nan
  | _, nan => nan
  | posInf, posInf => nan
  | negInf, negInf => nan
  | posInf, _ => posInf
  | _, negInf => posInf
  | negInf, _ => negInf
  | _, posInf => negInf
  | fin a, fin b => ofExact (a - b)

/-- The operator `a * c` for a finite positive constant `c`. -/
def mulConst (a : JSNum) (c : ℚ) : JSNum :=
  match a with
  | nan => nan
  | posInf => posInf
  | negInf => negInf
  | fin q => ofExact (q * c)

/-- The operator `a / d` for a finite positive constant `d`. -/
def divConst (a : JSNum) (d : ℚ) : JSNum :=
  match a with
  | nan => nan
  | posInf => posInf
  | negInf => negInf
  | fin q => ofExact (q / d)

/-- The operator `a < b` on Numbers: false as soon as one side is NaN. -/
def lt : JSNum → JSNum → Bool
  | nan, _ => false
  | _, nan => false
  | posInf, _ => false
  | _, negInf => false
  | negInf, _ => true
  | _, posInf => true
  | fin a, fin b => decide (a < b)

/-- The operator `a <= b` on Numbers: false as soon as one side is NaN. -/
def le : JSNum → JSNum → Bool
  | nan, _ => false
  | _, nan => false
  | negInf, _ => true
  | _, posInf => true
  | posInf, _ => false
  | _, negInf => false
  | fin a, fin b => decide (a ≤ b)

/-- The call `Math.max(a, b)`: NaN as soon as one argument is NaN. -/
def max : JSNum → JSNum → JSNum
  | nan, _ => nan
  | _, nan => nan
  | posInf, _ => posInf
  | _, posInf => posInf
  | negInf, b => b
  | a, negInf => a
  | fin a, fin b => fin (Max.max a b)

/-- The call `Math.round(x)`: the integer nearest to `x`, a tie going upwards. -/
def round : JSNum → JSNum
  | fin q => fin (⌊q + 1 / 2⌋ : ℤ)
  | x => x

end JSNum

/-- The literal `0.6`: the binary64 value nearest to three fifths. -/
def zeroPointSix : ℚ := fl64 (3 / 5)

/-- The constant `1000 * 60 * 60 * 24 * 365`, the milliseconds of a 365-day year. -/
def msPerYear : ℚ := 1000 * 60 * 60 * 24 * 365

/-! ## Values -/

/-- A JavaScript value as the handlers meet it: what `JSON.parse` builds, or `undefined`. A
parsed object lists its own properties, each key once. -/
inductive JSValue
  | undefined
  | null
  | bool (b : Bool)
  | num (n : JSNum)
  | str (s : String)
  | arr (items : List JSValue)
  | obj (props : List (String × JSValue))

/-- An exception thrown by the language itself. -/
inductive JSError
  | typeError (what : String)
deriving DecidableEq

namespace JSValue

/-- Member access `v.key` for a key that no built-in prototype defines (`url`, `message`,
`risk_score`, `risk_level`, `reasons`, `WhoisRecord`, `createdDate`): a TypeError on
`undefined` and `null`, the own property of an object, `undefined` otherwise. -/
def get (v : JSValue) (key : String) : Except JSError JSValue :=
  match v with
  | undefined => .error (.typeError "cannot read properties of undefined")
  | null => .error (.typeError "cannot read properties of null")
  | obj props => .ok ((props.lookup key).getD undefined)
  | _ => .ok undefined

/-- Optional member access `v?.key`. -/
def getOpt (v : JSValue) (key : String) : Except JSError JSValue :=
  match v with
  | undefined => .ok undefined
  | null => .ok undefined
  | w => w.get key

/-- Truthiness, as tested by `!v` and `if (v)`. -/
def truthy : JSValue → Bool
  | undefined => false
  | null => false
  | bool b => b
  | num (.fin q) => decide (q ≠ 0)
  | num .nan => false
  | num _ => true
  | str s => decide (s ≠ "")
  | arr _ => true
  | obj _ => true

/-- The elements produced by spreading `...v`: those of an array, the code points of a
string; nothing else that `JSON.parse` builds is iterable. -/
def iterate : JSValue → Except JSError (List JSValue)
  | arr items => .ok items
  | str s => .ok (s.data.map fun c => str (String.singleton c))
  | _ => .error (.typeError "value is not iterable")

end JSValue

/-! ## Strings -/

/-- The code points removed by `String.prototype.trim`: white space and line terminators. -/
def isTrimChar (c : Char) : Bool :=
  c.toNat ∈ [0x09, 0x0A, 0x0B, 0x0C, 0x0D, 0x20, 0xA0, 0x1680, 0x2028, 0x2029, 0x202F,
    0x205F, 0x3000, 0xFEFF] || (0x2000 ≤ c.toNat && c.toNat ≤ 0x200A)

/-- The method `s.trim()`. -/
def jsTrim (s : String) : String :=
  String.mk ((s.data.dropWhile isTrimChar).reverse.dropWhile isTrimChar).reverse

/-- The call `url.replace(/^https?:\/\//, "")` on the characters of `url`: a leading
`https://` or `http://` is removed, lower case only, once. -/
def stripScheme : List Char → List Char
  | 'h' :: 't' :: 't' :: 'p' :: 's' :: ':' :: '/' :: '/' :: rest => rest
  | 'h' :: 't' :: 't' :: 'p' :: ':' :: '/' :: '/' :: rest => rest
  | cs => cs

/-- The call `s.split("/")` on the characters of `s`. -/
def splitSlash : List Char → List (List Char)
  | [] => [[]]
  | c :: cs =>
    if c = '/' then [] :: splitSlash cs
    else
      match splitSlash cs with
      | [] => [[c]]
      | seg :: segs => (c :: seg) :: segs

/-- The expression `url.replace(/^https?:\/\//, "").split("/")[0]`; `none` stands for the
`undefined` of an empty array. A string is read as its sequence of code points; the
pattern and the separator are ASCII. -/
def domainOf? (url : String) : Option String :=
  (splitSlash (stripScheme url.data)).head?.map String.mk

/-- The `domain` of the URL handler. -/
def domainOf (url : String) : String :=
  (domainOf? url).getD ""

/-! ## The world outside the program -/

/-- Everything the handlers obtain from outside the program. -/
structure World where
  /-- The WHOIS request for a domain followed by `whoisRes.json()`: the parsed body, or
  `none` when either step throws. -/
  whois : String → Option JSValue
  /-- The completion request of `aiAnalyze` for a link, followed by the reading of
  `response.choices[0].message.content`: the content string, or the message of what the
  request, the reading or `trim` on a content that is no string threw. -/
  chatUrl : String → Except String String
  /-- The completion request of `aiAnalyzeText` for a message text, read in the same way. -/
  chatText : String → Except String String
  /-- The call `JSON.parse(text)`: `none` when it throws. -/
  jsonParse : String → Option JSValue
  /-- The value of `Date.now()`. -/
  now : JSNum
  /-- The time value of `new Date(v)`, NaN for an invalid date; the conversion of an
  object to a primitive may throw. -/
  dateValue : JSValue → Except JSError JSNum
  /-- The call `x.toFixed(1)`. -/
  toFixed1 : JSNum → String
  /-- Conversion to Number of a string, an array or an object. -/
  coerceNumber : JSValue → Except JSError JSNum
  /-- Conversion to String of anything that is not yet a string. -/
  coerceString : JSValue → Except JSError String

/-- Conversion `ToNumber(v)`, applied by the arithmetic operators to their operands. -/
def toNumber (w : World) : JSValue → Except JSError JSNum
  | .undefined => .ok .nan
  | .null => .ok (.fin 0)
  | .bool b => .ok (.fin (if b then 1 else 0))
  | .num n => .ok n
  | v => w.coerceNumber v

/-- Conversion `ToString(v)`, applied by a template literal to what it interpolates. -/
def toStringJS (w : World) : JSValue → Except JSError String
  | .str s => .ok s
  | v => w.coerceString v

/-- A request sent to a provider. -/
inductive Call
  | whois (domain : String)
  | chatUrl (url : String)
  | chatText (message : String)
deriving DecidableEq

/-- How a handler ends: an exception leaves it and it sends nothing, or it sends a JSON
body with a status code. The body is the object handed to `res.json`. -/
inductive Outcome
  | fault (e : JSError)
  | reply (status : Nat) (body : JSValue)

/-- One run of a handler: the provider requests made, in order, and the way it ends. -/
structure Run where
  calls : List Call
  result : Outcome

/-- The field `key` of the body of a reply. -/
def Outcome.field (o : Outcome) (key : String) : Option JSValue :=
  match o with
  | .reply _ (.obj props) => props.lookup key
  | _ => none

/-- The status code of a reply. -/
def Outcome.status? : Outcome → Option Nat
  | .reply status _ => some status
  | .fault _ => none

/-! ## The model signal -/

/-- The object literal returned by the two `catch` branches of a helper. -/
def fallbackSignal (score : ℚ) (cause : String) : JSValue :=
  .obj [("risk_level", .str "medium"), ("risk_score", .num (.fin score)),
    ("reasons", .arr [.str cause])]

/-- The function `aiAnalyzeText(message)`. The prompt is built before the `try`, so a
failing interpolation leaves the function; inside the `try` a failing request gives the
outer fallback and a failing `JSON.parse` the inner one; a value that parses is returned
as it is. -/
def aiAnalyzeText (w : World) (message : JSValue) : Except JSError JSValue := do
  let shown ← toStringJS w message
  match w.chatText shown with
  | .error _ => pure (fallbackSignal 40 "AI service unavailable")
  | .ok content =>
    let text := jsTrim content
    match w.jsonParse text with
    | some parsed => pure parsed
    | none => pure (fallbackSignal 40 "AI output could not be parsed")

/-- The function `aiAnalyze(url)`, of the same structure. -/
def aiAnalyze (w : World) (url : String) : JSValue :=
  match w.chatUrl url with
  | .error _ => fallbackSignal 30 "AI API request failed"
  | .ok content =>
    let text := jsTrim content
    match w.jsonParse text with
    | some parsed => parsed
    | none => fallbackSignal 30 "AI output parse failed"

/-! ## Scoring and labelling -/

/-- The conditional expression that both handlers give as `status`, on their `finalScore`. -/
def statusOf (finalScore : JSNum) : String :=
  if finalScore.lt (.fin 40) then "🚨 High Scam Risk"
  else if finalScore.lt (.fin 70) then "⚠️ Medium Risk"
  else "✅ Low Risk"

/-- The expression `Math.max(0, 100 - aiResult.risk_score)` of the text handler. -/
def textFinalScore (riskScore : JSNum) : JSNum :=
  JSNum.max (.fin 0) (JSNum.sub (.fin 100) riskScore)

/-- The statement `risk += aiResult.risk_score * 0.6`. -/
def addModelRisk (risk riskScore : JSNum) : JSNum :=
  JSNum.add risk (riskScore.mulConst zeroPointSix)

/-- The expression `Math.max(0, 100 - risk)` of the URL handler. -/
def urlFinalScore (risk : JSNum) : JSNum :=
  JSNum.max (.fin 0) (JSNum.sub (.fin 100) risk)

/-! ## Domain age -/

/-- What the `try` block of the URL handler learns about the domain. -/
inductive DomainAge
  /-- The `catch` branch ran: the request, `json()`, the member access or `new Date` threw. -/
  | failed
  /-- The record was read and `created` is falsy. -/
  | noDate
  /-- The value of `age`, in years. -/
  | age (years : JSNum)

/-- The `try` block up to the computation of `age`. -/
def lookupAge (w : World) (domain : String) : DomainAge :=
  match w.whois domain with
  | none => .failed
  | some whoisData =>
    match (do
      let record ← whoisData.get "WhoisRecord"
      let created ← record.getOpt "createdDate"
      if created.truthy then
        let t ← w.dateValue created
        pure (some ((JSNum.sub w.now t).divConst msPerYear))
      else pure none : Except JSError (Option JSNum)) with
    | .error _ => .failed
    | .ok none => .noDate
    | .ok (some years) => .age years

/-- The value of `risk` after the `try`/`catch` statement. -/
def ageRisk : DomainAge → JSNum
  | .age years => if years.lt (.fin 1) then JSNum.add (.fin 0) (.fin 25) else .fin 0
  | _ => .fin 0

/-- The value of `reasons` after the `try`/`catch` statement. -/
def ageReasons (w : World) : DomainAge → List JSValue
  | .failed => [.str "Domain age unavailable"]
  | .noDate => []
  | .age years =>
    if years.lt (.fin 1) then [.str "Very new domain"]
    else [.str ("Domain age: " ++ w.toFixed1 years ++ " years")]

/-! ## The handlers -/

/-- The body of a 400 reply. -/
def errorBody (reason : String) : JSValue := .obj [("error", .str reason)]

/-- The handler of `POST /scan-text` after its validation, from the model signal on. -/
def scanTextReply (w : World) (aiResult : JSValue) : Except JSError JSValue := do
  let riskScore ← toNumber w (← aiResult.get "risk_score")
  let finalScore := textFinalScore riskScore
  let level ← aiResult.get "risk_level"
  let reasons ← aiResult.get "reasons"
  pure (.obj [("brand", .str "TrustMona"), ("status", .str (statusOf finalScore)),
    ("monaScore", .num finalScore), ("aiRiskLevel", level), ("reasons", reasons),
    ("type", .str "message_scan"), ("poweredBy", .str "TrustMona AI")])

/-- The handler of `POST /scan-text`, on the parsed request body. -/
def scanText (w : World) (body : JSValue) : Run :=
  match body.get "message" with
  | .error e => ⟨[], .fault e⟩
  | .ok message =>
    if !message.truthy then ⟨[], .reply 400 (errorBody "Message text required")⟩
    else
      match toStringJS w message with
      | .error e => ⟨[], .fault e⟩
      | .ok shown =>
        match aiAnalyzeText w message >>= scanTextReply w with
        | .error e => ⟨[.chatText shown], .fault e⟩
        | .ok reply => ⟨[.chatText shown], .reply 200 reply⟩

/-- The handler of `POST /scan` after the `try`/`catch` statement, from the model signal on. -/
def scanReply (w : World) (domain : String) (found : DomainAge) (aiResult : JSValue) :
    Except JSError JSValue := do
  let riskScore ← toNumber w (← aiResult.get "risk_score")
  let risk := addModelRisk (ageRisk found) riskScore
  let finalScore := urlFinalScore risk
  let level ← aiResult.get "risk_level"
  let modelReasons ← (← aiResult.get "reasons").iterate
  pure (.obj [("brand", .str "TrustMona"), ("domain", .str domain),
    ("status", .str (statusOf finalScore)), ("monaScore", .num finalScore.round),
    ("aiRiskLevel", level), ("reasons", .arr (ageReasons w found ++ modelReasons)),
    ("poweredBy", .str "TrustMona AI")])

/-- The handler of `POST /scan`, on the parsed request body. Only a string has the method
`replace`. -/
def scan (w : World) (body : JSValue) : Run :=
  match body.get "url" with
  | .error e => ⟨[], .fault e⟩
  | .ok url =>
    if !url.truthy then ⟨[], .reply 400 (errorBody "URL required")⟩
    else
      match url with
      | .str u =>
        let domain := domainOf u
        let found := lookupAge w domain
        match scanReply w domain found (aiAnalyze w u) with
        | .error e => ⟨[.whois domain, .chatUrl u], .fault e⟩
        | .ok reply => ⟨[.whois domain, .chatUrl u], .reply 200 reply⟩
      | _ => ⟨[], .fault (.typeError "url.replace is not a function")⟩

/-! ## The score as the specification words it -/

/-- The domain-age contribution in the words of the specification: 25 when the age is
present and below one year, 0 otherwise. -/
def specAgePenalty : DomainAge → JSNum
  | .age years => if years.lt (.fin 1) then .fin 25 else .fin 0
  | _ => .fin 0

/-- The trust score of a URL scan in the words of the specification:
`max(0, round(100 - risk))` with `risk` the domain-age contribution plus `0.6` times the
model score. -/
def specTrustScore (found : DomainAge) (riskScore : JSNum) : JSNum :=
  JSNum.max (.fin 0)
    (JSNum.round (JSNum.sub (.fin 100)
      (JSNum.add (specAgePenalty found) (riskScore.mulConst zeroPointSix))))

/-! ## Concrete worlds and requests -/

/-- A world fixed by three answers: the WHOIS service answers `whoisReply` for every
domain, both completion requests end as `completion`, and `JSON.parse` gives `parsed` on
the trimmed content and throws on any other text. The clock stands half a 365-day year
after the epoch, the only date string in use is the epoch, and any other value is an
invalid date. -/
def fixedWorld (whoisReply : Option JSValue) (completion : Except String String)
    (parsed : Option JSValue) : World where
  whois := fun _ => whoisReply
  chatUrl := fun _ => completion
  chatText := fun _ => completion
  jsonParse := fun text =>
    match completion with
    | .ok content => if text = jsTrim content then parsed else none
    | .error _ => none
  now := .fin 15768000000
  dateValue := fun v =>
    match v with
    | .str "1970-01-01T00:00:00.000Z" => .ok (.fin 0)
    | _ => .ok .nan
  toFixed1 := fun _ => "NaN"
  coerceNumber := fun _ => .ok .nan
  coerceString := fun _ => .ok "[object Object]"

/-- A model signal of the expected shape. -/
def signal (level : String) (score : ℚ) (reasons : List String) : JSValue :=
  .obj [("risk_level", .str level), ("risk_score", .num (.fin score)),
    ("reasons", .arr (reasons.map .str))]

/-- The request body of a text scan. -/
def textRequest (message : String) : JSValue := .obj [("message", .str message)]

/-- The request body of a URL scan. -/
def urlRequest (url : String) : JSValue := .obj [("url", .str url)]

/-- A WHOIS answer whose record was created at the epoch. -/
def whoisCreatedAtEpoch : JSValue :=
  .obj [("WhoisRecord", .obj [("createdDate", .str "1970-01-01T00:00:00.000Z")])]

/-- A WHOIS answer whose record has no creation date. -/
def whoisWithoutDate : JSValue :=
  .obj [("WhoisRecord", .obj [("domainName", .str "example.com")])]

/-- A world whose model answers with the score -50 for a text. -/
def negativeScoreWorld : World :=
  fixedWorld none
    (.ok "\x7b\"risk_level\":\"low\",\"risk_score\":-50,\"reasons\":[]\x7d")
    (some (signal "low" (-50) []))

/-- A world whose model answers with a signal of score 30, the WHOIS request failing. -/
def mediumWorld : World :=
  fixedWorld none
    (.ok "\x7b\"risk_level\":\"medium\",\"risk_score\":30,\"reasons\":[\"unusual link\"]\x7d")
    (some (signal "medium" 30 ["unusual link"]))

/-- A world whose domain is half a year old and whose model answers with the score 59. -/
def youngWorld59 : World :=
  fixedWorld (some whoisCreatedAtEpoch)
    (.ok "\x7b\"risk_level\":\"medium\",\"risk_score\":59,\"reasons\":[\"odd offer\"]\x7d")
    (some (signal "medium" 59 ["odd offer"]))

/-- A world whose WHOIS request fails and whose model answers with the score 100. -/
def failedWorld100 : World :=
  fixedWorld none
    (.ok "\x7b\"risk_level\":\"high\",\"risk_score\":100,\"reasons\":[\"known scam\"]\x7d")
    (some (signal "high" 100 ["known scam"]))

/-- A world whose WHOIS answer has no creation date and whose model answers with a signal
of score 30. -/
def noDateWorld : World :=
  fixedWorld (some whoisWithoutDate)
    (.ok "\x7b\"risk_level\":\"medium\",\"risk_score\":30,\"reasons\":[\"unusual link\"]\x7d")
    (some (signal "medium" 30 ["unusual link"]))

/-- A world whose model answers with the text `null`, which is valid JSON. -/
def nullWorld : World := fixedWorld none (.ok "null") (some .null)

/-- A world whose model answers with the text of an empty object, which is valid JSON. -/
def emptyObjectWorld : World := fixedWorld none (.ok "\x7b\x7d") (some (.obj []))

/-- A world whose completion request throws. -/
def unavailableWorld : World := fixedWorld none (.error "connect ETIMEDOUT") none

/-- A world whose model answers with a sentence, on which `JSON.parse` throws. -/
def proseWorld : World := fixedWorld none (.ok "This link looks suspicious.") none

/-! ## Rounding lemmas -/

theorem floor_le_roundHalfEven (q : ℚ) : ⌊q⌋ ≤ roundHalfEven q := by
  unfold roundHalfEven
  simp only
  split_ifs <;> omega

theorem roundHalfEven_le_floor_succ (q : ℚ) : roundHalfEven q ≤ ⌊q⌋ + 1 := by
  unfold roundHalfEven
  simp only
  split_ifs <;> omega

theorem roundHalfEven_intCast (n : ℤ) : roundHalfEven (n : ℚ) = n := by
  unfold roundHalfEven
  simp

theorem roundHalfEven_mono {a b : ℚ} (h : a ≤ b) : roundHalfEven a ≤ roundHalfEven b := by
  rcases (Int.floor_mono h).lt_or_eq with hlt | heq
  · calc roundHalfEven a ≤ ⌊a⌋ + 1 := roundHalfEven_le_floor_succ a
      _ ≤ ⌊b⌋ := hlt
      _ ≤ roundHalfEven b := floor_le_roundHalfEven b
  · unfold roundHalfEven
    simp only
    rw [heq]
    split_ifs <;> first | omega | (exfalso; linarith)

theorem ulp64_pos (q : ℚ) : 0 < ulp64 q := by
  unfold ulp64
  positivity

theorem fl64_nonneg {q : ℚ} (h : 0 ≤ q) : 0 ≤ fl64 q := by
  unfold fl64
  have h1 : (0 : ℤ) ≤ roundHalfEven (q / ulp64 q) := by
    have := roundHalfEven_mono (div_nonneg h (ulp64_pos q).le)
    rwa [show roundHalfEven (0 : ℚ) = 0 from by simpa using roundHalfEven_intCast 0] at this
  have h2 : (0 : ℚ) ≤ (roundHalfEven (q / ulp64 q) : ℚ) := by exact_mod_cast h1
  exact mul_nonneg h2 (ulp64_pos q).le

theorem fl64_nonpos {q : ℚ} (h : q ≤ 0) : fl64 q ≤ 0 := by
  unfold fl64
  have h1 : roundHalfEven (q / ulp64 q) ≤ (0 : ℤ) := by
    have := roundHalfEven_mono (div_nonpos_of_nonpos_of_nonneg h (ulp64_pos q).le)
    rwa [show roundHalfEven (0 : ℚ) = 0 from by simpa using roundHalfEven_intCast 0] at this
  have h2 : (roundHalfEven (q / ulp64 q) : ℚ) ≤ 0 := by exact_mod_cast h1
  exact mul_nonpos_of_nonpos_of_nonneg h2 (ulp64_pos q).le

/-- Below `2 ^ 53` in magnitude the spacing of binary64 is a power of two not above one. -/
theorem ulp64_of_lt {q : ℚ} (h : |q| < 2 ^ 53) : ∃ k : ℕ, ulp64 q = ((2 : ℚ) ^ k)⁻¹ := by
  have hlog : Int.log 2 |q| < 53 := by
    rcases (abs_nonneg q).lt_or_eq with hpos | hzero
    · have h53 : ((2 : ℕ) : ℚ) ^ (53 : ℤ) = 2 ^ 53 := by norm_num
      exact (Int.lt_zpow_iff_log_lt (by norm_num) hpos).1 (by rw [h53]; exact h)
    · rw [← hzero]; simp
  refine ⟨(52 - max (Int.log 2 |q|) (-1022)).toNat, ?_⟩
  unfold ulp64
  rw [← zpow_natCast, ← zpow_neg, Int.toNat_of_nonneg (by omega)]
  congr 1
  omega

/-- Rounding a value below `2 ^ 53` in magnitude does not cross an integer above it. -/
theorem fl64_le_intCast {q : ℚ} {n : ℤ} (hq : |q| < 2 ^ 53) (h : q ≤ n) : fl64 q ≤ n := by
  obtain ⟨k, hk⟩ := ulp64_of_lt hq
  unfold fl64
  rw [hk]
  have hpos : (0 : ℚ) < 2 ^ k := by positivity
  have h1 : q / ((2 : ℚ) ^ k)⁻¹ ≤ ((n * 2 ^ k : ℤ) : ℚ) := by
    rw [div_inv_eq_mul]; push_cast
    exact mul_le_mul_of_nonneg_right h hpos.le
  have h2 := roundHalfEven_mono h1
  rw [roundHalfEven_intCast] at h2
  have h3 : (roundHalfEven (q / ((2 : ℚ) ^ k)⁻¹) : ℚ) ≤ ((n * 2 ^ k : ℤ) : ℚ) := by
    exact_mod_cast h2
  calc (roundHalfEven (q / ((2 : ℚ) ^ k)⁻¹) : ℚ) * ((2 : ℚ) ^ k)⁻¹
      ≤ ((n * 2 ^ k : ℤ) : ℚ) * ((2 : ℚ) ^ k)⁻¹ :=
        mul_le_mul_of_nonneg_right h3 (inv_nonneg.2 hpos.le)
    _ = n := by push_cast; field_simp

/-- An integer below `2 ^ 53` in magnitude is a binary64 value. -/
theorem fl64_intCast {n : ℤ} (hn : |(n : ℚ)| < 2 ^ 53) : fl64 (n : ℚ) = n := by
  obtain ⟨k, hk⟩ := ulp64_of_lt hn
  unfold fl64
  rw [hk]
  have hpos : (0 : ℚ) < 2 ^ k := by positivity
  have h1 : (n : ℚ) / ((2 : ℚ) ^ k)⁻¹ = ((n * 2 ^ k : ℤ) : ℚ) := by
    rw [div_inv_eq_mul]; push_cast; ring
  rw [h1, roundHalfEven_intCast]
  push_cast; field_simp

theorem roundHalfEven_eq_of_near {q : ℚ} {m : ℤ} (h : |q - m| < 1 / 2) :
    roundHalfEven q = m := by
  rw [abs_lt] at h
  obtain ⟨h1, h2⟩ := h
  by_cases hm : (m : ℚ) ≤ q
  · have hf : ⌊q⌋ = m := Int.floor_eq_iff.2 ⟨hm, by linarith⟩
    unfold roundHalfEven
    simp only [hf]
    rw [if_pos (by linarith)]
  · have hf : ⌊q⌋ = m - 1 := Int.floor_eq_iff.2 ⟨by push_cast; linarith, by
      push_cast; linarith⟩
    unfold roundHalfEven
    simp only [hf]
    push_cast
    rw [if_neg (by linarith), if_pos (by linarith)]
    omega

/-- Evaluation of `fl64` at a value of known binade and known nearest mantissa. -/
theorem fl64_eq_of_bounds {q : ℚ} (e m : ℤ) (he : -1022 ≤ e) (hlo : (2 : ℚ) ^ e ≤ |q|)
    (hhi : |q| < (2 : ℚ) ^ (e + 1)) (hm : |q / (2 : ℚ) ^ (e - 52) - m| < 1 / 2) :
    fl64 q = m * (2 : ℚ) ^ (e - 52) := by
  have hpos : 0 < |q| := lt_of_lt_of_le (by positivity) hlo
  have hlog : Int.log 2 |q| = e := by
    apply le_antisymm
    · have := (Int.lt_zpow_iff_log_lt (b := 2) (by norm_num) hpos).1 (by
        rw [Nat.cast_ofNat]; exact hhi)
      omega
    · exact (Int.zpow_le_iff_le_log (b := 2) (by norm_num) hpos).1 (by
        rw [Nat.cast_ofNat]; exact hlo)
  unfold fl64 ulp64
  rw [hlog, max_eq_left he, roundHalfEven_eq_of_near hm]

namespace JSNum

theorem ofExact_intCast {n : ℤ} (hn : |(n : ℚ)| < 2 ^ 53) : ofExact (n : ℚ) = fin n := by
  unfold ofExact
  simp only [fl64_intCast hn]
  rw [abs_lt] at hn
  rw [if_neg (by
    have : (2 : ℚ) ^ 53 < 2 ^ 1024 := by norm_num
    linarith), if_neg (by
    have : (2 : ℚ) ^ 53 < 2 ^ 1024 := by norm_num
    linarith)]

end JSNum

/-- The literal `0.6` denotes `5404319552844595 / 2 ^ 53`, a little below three fifths. -/
theorem zeroPointSix_eq : zeroPointSix = 5404319552844595 / 2 ^ 53 := by
  unfold zeroPointSix
  rw [fl64_eq_of_bounds (-1) 5404319552844595 (by norm_num) (by norm_num [abs_of_pos])
    (by norm_num [abs_of_pos]) (by norm_num [abs_lt])]
  norm_num

theorem zeroPointSix_pos : 0 < zeroPointSix := by
  rw [zeroPointSix_eq]; norm_num

/-! ## Order lemmas for the Number operations -/

/-- Rounding does not cross a non-negative integer below `2 ^ 53` from below. -/
theorem fl64_le_of_le_intCast {q : ℚ} {n : ℤ} (h0 : 0 ≤ n) (hn : (n : ℚ) < 2 ^ 53)
    (h : q ≤ n) : fl64 q ≤ n := by
  rcases le_or_lt q 0 with hq | hq
  · exact le_trans (fl64_nonpos hq) (by exact_mod_cast h0)
  · exact fl64_le_intCast (by rw [abs_of_pos hq]; linarith) h

namespace JSNum

theorem ofExact_ne_nan (q : ℚ) : ofExact q ≠ nan := by
  unfold ofExact
  simp only
  split_ifs <;> simp

theorem zero_le_ofExact {q : ℚ} (h : 0 ≤ q) : le (fin 0) (ofExact q) = true := by
  unfold ofExact
  simp only
  split_ifs
  · rfl
  · exfalso
    have := fl64_nonneg h
    have h2 : (0 : ℚ) < 2 ^ 1024 := by positivity
    linarith
  · simpa [le] using fl64_nonneg h

theorem ofExact_le_intCast {q : ℚ} {n : ℤ} (h0 : 0 ≤ n) (hn : (n : ℚ) < 2 ^ 53) (h : q ≤ n) :
    le (ofExact q) (fin n) = true := by
  have hfl := fl64_le_of_le_intCast h0 hn h
  unfold ofExact
  simp only
  split_ifs with h1 h2
  · exfalso
    have : (2 : ℚ) ^ 53 < 2 ^ 1024 := by norm_num
    linarith
  · rfl
  · simpa [le] using hfl

theorem zero_le_max_zero {x : JSNum} (hx : x ≠ nan) : le (fin 0) (max (fin 0) x) = true := by
  cases x with
  | nan => exact absurd rfl hx
  | negInf => simp [max, le]
  | posInf => simp [max, le]
  | fin q => simp [max, le]

theorem max_zero_le {x : JSNum} {n : ℚ} (hn : 0 ≤ n) (hx : le x (fin n) = true) :
    le (max (fin 0) x) (fin n) = true := by
  cases x with
  | nan => simp [le] at hx
  | negInf => simpa [max, le] using hn
  | posInf => simp [le] at hx
  | fin q => simp [max, le] at hx ⊢; exact ⟨hn, hx⟩

theorem sub_fin_ne_nan (a : ℚ) {x : JSNum} (hx : x ≠ nan) : sub (fin a) x ≠ nan := by
  cases x with
  | nan => exact absurd rfl hx
  | negInf => simp [sub]
  | posInf => simp [sub]
  | fin q => simpa [sub] using ofExact_ne_nan _

theorem sub_hundred_le {x : JSNum} (hx : le (fin 0) x = true) :
    le (sub (fin 100) x) (fin 100) = true := by
  cases x with
  | nan => simp [le] at hx
  | negInf => simp [le] at hx
  | posInf => simp [sub, le]
  | fin q =>
    simp only [le, decide_eq_true_eq] at hx
    simp only [sub]
    have := ofExact_le_intCast (q := 100 - q) (n := 100) (by norm_num) (by norm_num)
      (by push_cast; linarith)
    simpa using this

theorem mulConst_ne_nan {x : JSNum} (c : ℚ) (hx : x ≠ nan) : mulConst x c ≠ nan := by
  cases x with
  | nan => exact absurd rfl hx
  | negInf => simp [mulConst]
  | posInf => simp [mulConst]
  | fin q => simpa [mulConst] using ofExact_ne_nan _

theorem zero_le_mulConst {x : JSNum} {c : ℚ} (hc : 0 ≤ c) (hx : le (fin 0) x = true) :
    le (fin 0) (mulConst x c) = true := by
  cases x with
  | nan => simp [le] at hx
  | negInf => simp [le] at hx
  | posInf => simp [mulConst, le]
  | fin q =>
    simp only [le, decide_eq_true_eq] at hx
    simpa [mulConst] using zero_le_ofExact (mul_nonneg hx hc)

theorem add_fin_ne_nan (a : ℚ) {x : JSNum} (hx : x ≠ nan) : add (fin a) x ≠ nan := by
  cases x with
  | nan => exact absurd rfl hx
  | negInf => simp [add]
  | posInf => simp [add]
  | fin q => simpa [add] using ofExact_ne_nan _

theorem zero_le_add_fin {a : ℚ} {x : JSNum} (ha : 0 ≤ a) (hx : le (fin 0) x = true) :
    le (fin 0) (add (fin a) x) = true := by
  cases x with
  | nan => simp [le] at hx
  | negInf => simp [le] at hx
  | posInf => simp [add, le]
  | fin q =>
    simp only [le, decide_eq_true_eq] at hx
    simpa [add] using zero_le_ofExact (add_nonneg ha hx)

theorem zero_le_round {x : JSNum} (hx : le (fin 0) x = true) : le (fin 0) (round x) = true := by
  cases x with
  | nan => simp [le] at hx
  | negInf => simp [le] at hx
  | posInf => simp [round, le]
  | fin q =>
    simp only [le, decide_eq_true_eq] at hx
    simp only [round, le, decide_eq_true_eq]
    have : (0 : ℤ) ≤ ⌊q + 1 / 2⌋ := Int.floor_nonneg.2 (by linarith)
    exact_mod_cast this

theorem round_le_intCast {x : JSNum} {n : ℤ} (hx : le x (fin n) = true) :
    le (round x) (fin n) = true := by
  cases x with
  | nan => simp [le] at hx
  | negInf => simp [round, le]
  | posInf => simp [le] at hx
  | fin q =>
    simp only [le, decide_eq_true_eq] at hx
    simp only [round, le, decide_eq_true_eq]
    have : ⌊q + 1 / 2⌋ ≤ n := by
      have h1 : ⌊q + 1 / 2⌋ < n + 1 := Int.floor_lt.2 (by push_cast; linarith)
      omega
    exact_mod_cast this

end JSNum

/-! ## The handlers, step by step -/

theorem get_ok_of_get_ok {sig v : JSValue} {key : String} (h : sig.get key = .ok v)
    (other : String) : ∃ v', sig.get other = .ok v' := by
  cases sig <;> simp [JSValue.get] at h ⊢

theorem scanTextReply_of_score (w : World) (sig v : JSValue) (r : JSNum)
    (h : sig.get "risk_score" = .ok v) (hn : toNumber w v = .ok r) :
    ∃ level reasons, sig.get "risk_level" = .ok level ∧ sig.get "reasons" = .ok reasons ∧
      scanTextReply w sig = .ok (.obj [("brand", .str "TrustMona"),
        ("status", .str (statusOf (textFinalScore r))), ("monaScore", .num (textFinalScore r)),
        ("aiRiskLevel", level), ("reasons", reasons), ("type", .str "message_scan"),
        ("poweredBy", .str "TrustMona AI")]) := by
  obtain ⟨level, hl⟩ := get_ok_of_get_ok h "risk_level"
  obtain ⟨reasons, hrs⟩ := get_ok_of_get_ok h "reasons"
  refine ⟨level, reasons, hl, hrs, ?_⟩
  simp [scanTextReply, h, hn, hl, hrs, bind, Except.bind, pure, Except.pure]

theorem scanText_of_signal (w : World) (body : JSValue) {message sig : JSValue}
    (hm : body.get "message" = .ok message) (ht : message.truthy = true)
    (ha : aiAnalyzeText w message = .ok sig) :
    ∃ shown, toStringJS w message = .ok shown ∧
      scanText w body =
        match scanTextReply w sig with
        | .error e => ⟨[.chatText shown], .fault e⟩
        | .ok reply => ⟨[.chatText shown], .reply 200 reply⟩ := by
  cases hs : toStringJS w message with
  | error e => simp [aiAnalyzeText, hs, bind, Except.bind] at ha
  | ok shown =>
    refine ⟨shown, rfl, ?_⟩
    simp [scanText, hm, ht, hs, ha, bind, Except.bind]

theorem scanReply_of_score (w : World) (domain : String) (found : DomainAge)
    (sig v reasons : JSValue) (r : JSNum) (items : List JSValue)
    (h : sig.get "risk_score" = .ok v) (hn : toNumber w v = .ok r)
    (hrs : sig.get "reasons" = .ok reasons) (hi : reasons.iterate = .ok items) :
    ∃ level, sig.get "risk_level" = .ok level ∧
      scanReply w domain found sig = .ok (.obj [("brand", .str "TrustMona"),
        ("domain", .str domain),
        ("status", .str (statusOf (urlFinalScore (addModelRisk (ageRisk found) r)))),
        ("monaScore", .num (urlFinalScore (addModelRisk (ageRisk found) r)).round),
        ("aiRiskLevel", level), ("reasons", .arr (ageReasons w found ++ items)),
        ("poweredBy", .str "TrustMona AI")]) := by
  obtain ⟨level, hl⟩ := get_ok_of_get_ok h "risk_level"
  refine ⟨level, hl, ?_⟩
  simp [scanReply, h, hn, hl, hrs, hi, bind, Except.bind, pure, Except.pure]

theorem scan_of_string (w : World) (body : JSValue) (u : String)
    (hu : body.get "url" = .ok (.str u)) (hne : u ≠ "") :
    scan w body =
      match scanReply w (domainOf u) (lookupAge w (domainOf u)) (aiAnalyze w u) with
      | .error e => ⟨[.whois (domainOf u), .chatUrl u], .fault e⟩
      | .ok reply => ⟨[.whois (domainOf u), .chatUrl u], .reply 200 reply⟩ := by
  simp [scan, hu, JSValue.truthy, hne]

theorem scan_of_signal (w : World) (body sig v reasons : JSValue) (u : String) (r : JSNum)
    (items : List JSValue) (hu : body.get "url" = .ok (.str u)) (hne : u ≠ "")
    (ha : aiAnalyze w u = sig) (h : sig.get "risk_score" = .ok v)
    (hn : toNumber w v = .ok r) (hrs : sig.get "reasons" = .ok reasons)
    (hi : reasons.iterate = .ok items) :
    ∃ level, sig.get "risk_level" = .ok level ∧
      scan w body = ⟨[.whois (domainOf u), .chatUrl u],
        .reply 200 (.obj [("brand", .str "TrustMona"), ("domain", .str (domainOf u)),
          ("status", .str (statusOf
            (urlFinalScore (addModelRisk (ageRisk (lookupAge w (domainOf u))) r)))),
          ("monaScore", .num
            (urlFinalScore (addModelRisk (ageRisk (lookupAge w (domainOf u))) r)).round),
          ("aiRiskLevel", level),
          ("reasons", .arr (ageReasons w (lookupAge w (domainOf u)) ++ items)),
          ("poweredBy", .str "TrustMona AI")])⟩ := by
  subst ha
  obtain ⟨level, hl, hreply⟩ :=
    scanReply_of_score w (domainOf u) (lookupAge w (domainOf u)) _ v reasons r items
      h hn hrs hi
  exact ⟨level, hl, by rw [scan_of_string w body u hu hne, hreply]⟩

/-! ## Bounds of the score -/

theorem add_zero_twentyFive : JSNum.add (.fin 0) (.fin 25) = .fin 25 := by
  have h := JSNum.ofExact_intCast (n := 25) (by norm_num [abs_of_pos])
  simp only [JSNum.add]
  norm_num at h ⊢
  exact h

theorem ageRisk_eq_specAgePenalty (found : DomainAge) : ageRisk found = specAgePenalty found := by
  cases found with
  | failed => rfl
  | noDate => rfl
  | age years =>
    simp only [ageRisk, specAgePenalty]
    split_ifs
    · exact add_zero_twentyFive
    · rfl

theorem ageRisk_nonneg (found : DomainAge) : ∃ a : ℚ, 0 ≤ a ∧ ageRisk found = .fin a := by
  rw [ageRisk_eq_specAgePenalty]
  cases found with
  | failed => exact ⟨0, le_refl _, rfl⟩
  | noDate => exact ⟨0, le_refl _, rfl⟩
  | age years =>
    simp only [specAgePenalty]
    split_ifs
    · exact ⟨25, by norm_num, rfl⟩
    · exact ⟨0, le_refl _, rfl⟩

theorem textFinalScore_bounds {r : JSNum} (hr : r ≠ .nan) :
    JSNum.le (.fin 0) (textFinalScore r) = true ∧
      (JSNum.le (.fin 0) r = true → JSNum.le (textFinalScore r) (.fin 100) = true) := by
  unfold textFinalScore
  refine ⟨JSNum.zero_le_max_zero (JSNum.sub_fin_ne_nan _ hr), fun h0 => ?_⟩
  exact JSNum.max_zero_le (by norm_num) (JSNum.sub_hundred_le h0)

theorem urlMonaScore_bounds (found : DomainAge) {r : JSNum} (hr : r ≠ .nan) :
    JSNum.le (.fin 0) (urlFinalScore (addModelRisk (ageRisk found) r)).round = true ∧
      (JSNum.le (.fin 0) r = true →
        JSNum.le (urlFinalScore (addModelRisk (ageRisk found) r)).round (.fin 100) = true) := by
  obtain ⟨a, ha, hfound⟩ := ageRisk_nonneg found
  unfold urlFinalScore addModelRisk
  rw [hfound]
  have hrisk : JSNum.add (.fin a) (r.mulConst zeroPointSix) ≠ .nan :=
    JSNum.add_fin_ne_nan _ (JSNum.mulConst_ne_nan _ hr)
  refine ⟨JSNum.zero_le_round (JSNum.zero_le_max_zero (JSNum.sub_fin_ne_nan _ hrisk)),
    fun h0 => ?_⟩
  have h1 := JSNum.zero_le_add_fin ha (JSNum.zero_le_mulConst zeroPointSix_pos.le h0)
  have h2 := JSNum.max_zero_le (n := 100) (by norm_num) (JSNum.sub_hundred_le h1)
  have h3 := JSNum.round_le_intCast (n := 100) (by simpa using h2)
  simpa using h3

/-! ## C1: range of `monaScore` -/

/-- C1, as stated, fails: a model signal with `risk_score` -50 makes `POST /scan-text`
answer 200 with `monaScore` 150, which is not at most 100. -/
theorem monaScore_exceeds_hundred :
    (scanText negativeScoreWorld (textRequest "hello")).result.status? = some 200 ∧
      (scanText negativeScoreWorld (textRequest "hello")).result.field "monaScore"
        = some (.num (.fin 150)) ∧
      JSNum.le (.fin 150) (.fin 100) = false := by
  have hsub : JSNum.sub (.fin 100) (.fin (-50)) = .fin 150 := by
    have h := JSNum.ofExact_intCast (n := 150) (by norm_num [abs_of_pos])
    simp only [JSNum.sub]
    norm_num at h ⊢
    exact h
  have hrun : (scanText negativeScoreWorld (textRequest "hello")).result
      = .reply 200 (.obj [("brand", .str "TrustMona"), ("status", .str "✅ Low Risk"),
          ("monaScore", .num (.fin 150)), ("aiRiskLevel", .str "low"), ("reasons", .arr []),
          ("type", .str "message_scan"), ("poweredBy", .str "TrustMona AI")]) := by
    simp [scanText, textRequest, negativeScoreWorld, fixedWorld, signal, JSValue.get,
      JSValue.truthy, toStringJS, aiAnalyzeText, scanTextReply, toNumber, textFinalScore,
      hsub, JSNum.max, statusOf, JSNum.lt, bind, Except.bind, pure, Except.pure, List.lookup]
    norm_num
  refine ⟨by rw [hrun]; rfl, by rw [hrun]; rfl, ?_⟩
  simp [JSNum.le]
  norm_num

/-- C1 (amended): for a model signal whose `risk_score` is a number other than NaN, the
text scan answers 200 and the URL scan, whenever the reasons of the signal can be spread,
answers 200, each with a `monaScore` that is at least 0; the `monaScore` is at most 100
whenever the `risk_score` is at least 0. -/
theorem monaScore_range (w : World) (sig : JSValue) (r : JSNum)
    (hscore : sig.get "risk_score" = .ok (.num r)) (hr : r ≠ .nan) :
    (∀ body message, body.get "message" = .ok message → message.truthy = true →
      aiAnalyzeText w message = .ok sig →
      ∃ m, (scanText w body).result.status? = some 200 ∧
        (scanText w body).result.field "monaScore" = some (.num m) ∧
        JSNum.le (.fin 0) m = true ∧
        (JSNum.le (.fin 0) r = true → JSNum.le m (.fin 100) = true)) ∧
    (∀ body u reasons items, body.get "url" = .ok (.str u) → u ≠ "" → aiAnalyze w u = sig →
      sig.get "reasons" = .ok reasons → reasons.iterate = .ok items →
      ∃ m, (scan w body).result.status? = some 200 ∧
        (scan w body).result.field "monaScore" = some (.num m) ∧
        JSNum.le (.fin 0) m = true ∧
        (JSNum.le (.fin 0) r = true → JSNum.le m (.fin 100) = true)) := by
  constructor
  · intro body message hm ht ha
    obtain ⟨shown, -, hrun⟩ := scanText_of_signal w body hm ht ha
    obtain ⟨level, reasons, -, -, hreply⟩ := scanTextReply_of_score w sig _ r hscore rfl
    rw [hrun, hreply]
    exact ⟨textFinalScore r, rfl, by simp [Outcome.field, List.lookup],
      textFinalScore_bounds hr⟩
  · intro body u reasons items hu hne ha hrs hi
    obtain ⟨level, -, hrun⟩ :=
      scan_of_signal w body sig _ reasons u r items hu hne ha hscore rfl hrs hi
    rw [hrun]
    exact ⟨_, rfl, by simp [Outcome.field, List.lookup],
      urlMonaScore_bounds (lookupAge w (domainOf u)) hr⟩

/-- C1 (amended), at the signal of score 30: both handlers answer 200 with a `monaScore`
between 0 and 100. -/
theorem monaScore_range_witness :
    (∃ m, (scanText mediumWorld (textRequest "hello")).result.status? = some 200 ∧
        (scanText mediumWorld (textRequest "hello")).result.field "monaScore"
          = some (.num m) ∧
        JSNum.le (.fin 0) m = true ∧ JSNum.le m (.fin 100) = true) ∧
      (∃ m, (scan mediumWorld (urlRequest "example.com")).result.status? = some 200 ∧
        (scan mediumWorld (urlRequest "example.com")).result.field "monaScore"
          = some (.num m) ∧
        JSNum.le (.fin 0) m = true ∧ JSNum.le m (.fin 100) = true) := by
  have h := monaScore_range mediumWorld (signal "medium" 30 ["unusual link"]) (.fin 30)
    rfl (by simp)
  have h30 : JSNum.le (.fin 0) (.fin 30) = true := by simp [JSNum.le]
  constructor
  · obtain ⟨m, h1, h2, h3, h4⟩ := h.1 (textRequest "hello") (.str "hello") rfl rfl
      (by simp [aiAnalyzeText, mediumWorld, fixedWorld, toStringJS, bind, Except.bind, pure,
        Except.pure])
    exact ⟨m, h1, h2, h3, h4 h30⟩
  · obtain ⟨m, h1, h2, h3, h4⟩ := h.2 (urlRequest "example.com") "example.com"
      (.arr [.str "unusual link"]) [.str "unusual link"] rfl (by decide)
      (by simp [aiAnalyze, mediumWorld, fixedWorld]) rfl rfl
    exact ⟨m, h1, h2, h3, h4 h30⟩

/-! ## C2: the label and the returned score -/

namespace JSNum

/-- Evaluation of an operation whose exact result has a known binade and mantissa. -/
theorem ofExact_eq_of_bounds {q : ℚ} (e m : ℤ) (he : -1022 ≤ e) (hlo : (2 : ℚ) ^ e ≤ |q|)
    (hhi : |q| < (2 : ℚ) ^ (e + 1)) (hm : |q / (2 : ℚ) ^ (e - 52) - m| < 1 / 2)
    (hfin : |(m : ℚ) * (2 : ℚ) ^ (e - 52)| < 2 ^ 1024) :
    ofExact q = fin (m * (2 : ℚ) ^ (e - 52)) := by
  unfold ofExact
  simp only [fl64_eq_of_bounds e m he hlo hhi hm]
  rw [abs_lt] at hfin
  rw [if_neg (by linarith), if_neg (by linarith)]

end JSNum

theorem age_half_year :
    (JSNum.sub (.fin 15768000000) (.fin 0)).divConst msPerYear = .fin (1 / 2) := by
  have h1 : JSNum.sub (.fin 15768000000) (.fin 0) = .fin 15768000000 := by
    have h := JSNum.ofExact_intCast (n := 15768000000) (by norm_num [abs_of_pos])
    simp only [JSNum.sub]
    norm_num at h ⊢
    exact h
  rw [h1]
  simp only [JSNum.divConst, msPerYear]
  rw [JSNum.ofExact_eq_of_bounds (-1) (2 ^ 52) (by norm_num) (by norm_num [abs_of_pos])
    (by norm_num [abs_of_pos]) (by norm_num [abs_lt]) (by norm_num [abs_of_pos])]
  norm_num

theorem mul_59 : (JSNum.fin 59).mulConst zeroPointSix = .fin (4982107087778611 / 2 ^ 47) := by
  simp only [JSNum.mulConst, zeroPointSix_eq]
  rw [JSNum.ofExact_eq_of_bounds 5 4982107087778611 (by norm_num) (by norm_num [abs_of_pos])
    (by norm_num [abs_of_pos]) (by norm_num [abs_lt]) (by norm_num [abs_of_pos])]
  norm_num

theorem add_25_mul_59 :
    JSNum.add (.fin 25) (.fin (4982107087778611 / 2 ^ 47)) = .fin (8500544296661811 / 2 ^ 47) := by
  simp only [JSNum.add]
  rw [JSNum.ofExact_eq_of_bounds 5 8500544296661811 (by norm_num) (by norm_num [abs_of_pos])
    (by norm_num [abs_of_pos]) (by norm_num [abs_lt]) (by norm_num [abs_of_pos])]
  norm_num

theorem sub_100_risk_59 :
    JSNum.sub (.fin 100) (.fin (8500544296661811 / 2 ^ 47))
      = .fin (5573204538870989 / 2 ^ 47) := by
  simp only [JSNum.sub]
  rw [JSNum.ofExact_eq_of_bounds 5 5573204538870989 (by norm_num) (by norm_num [abs_of_pos])
    (by norm_num [abs_of_pos]) (by norm_num [abs_lt]) (by norm_num [abs_of_pos])]
  norm_num

theorem mul_100 : (JSNum.fin 100).mulConst zeroPointSix = .fin 60 := by
  simp only [JSNum.mulConst, zeroPointSix_eq]
  rw [JSNum.ofExact_eq_of_bounds 5 (60 * 2 ^ 47) (by norm_num) (by norm_num [abs_of_pos])
    (by norm_num [abs_of_pos]) (by norm_num [abs_lt]) (by norm_num [abs_of_pos])]
  norm_num

theorem add_0_60 : JSNum.add (.fin 0) (.fin 60) = .fin 60 := by
  have h := JSNum.ofExact_intCast (n := 60) (by norm_num [abs_of_pos])
  simp only [JSNum.add]
  norm_num at h ⊢
  exact h

theorem sub_100_60 : JSNum.sub (.fin 100) (.fin 60) = .fin 40 := by
  have h := JSNum.ofExact_intCast (n := 40) (by norm_num [abs_of_pos])
  simp only [JSNum.sub]
  norm_num at h ⊢
  exact h

theorem round_risk_59 : (JSNum.fin (5573204538870989 / 2 ^ 47)).round = .fin 40 := by
  simp only [JSNum.round]
  have h : ⌊(5573204538870989 / 2 ^ 47 : ℚ) + 1 / 2⌋ = 40 :=
    Int.floor_eq_iff.2 ⟨by norm_num, by norm_num⟩
  rw [h]
  norm_num

theorem round_40 : (JSNum.fin 40).round = .fin 40 := by
  simp only [JSNum.round]
  have h : ⌊(40 : ℚ) + 1 / 2⌋ = 40 := Int.floor_eq_iff.2 ⟨by norm_num, by norm_num⟩
  rw [h]
  norm_num

theorem lookupAge_youngWorld59 (domain : String) :
    lookupAge youngWorld59 domain = .age (.fin (1 / 2)) := by
  simp [lookupAge, youngWorld59, fixedWorld, whoisCreatedAtEpoch, JSValue.get, JSValue.getOpt,
    JSValue.truthy, List.lookup, bind, Except.bind, pure, Except.pure, age_half_year]

theorem aiAnalyze_fixedWorld (whoisReply : Option JSValue) (content url : String)
    (parsed : JSValue) :
    aiAnalyze (fixedWorld whoisReply (.ok content) (some parsed)) url = parsed := by
  simp [aiAnalyze, fixedWorld]

theorem finalScore_young_59 :
    urlFinalScore (addModelRisk (ageRisk (.age (.fin (1 / 2)))) (.fin 59))
      = .fin (5573204538870989 / 2 ^ 47) := by
  have hlt : JSNum.lt (.fin (1 / 2)) (.fin 1) = true := by simp [JSNum.lt]; norm_num
  have hmax : JSNum.max (.fin 0) (.fin (5573204538870989 / 2 ^ 47))
      = .fin (5573204538870989 / 2 ^ 47) := by
    simp only [JSNum.max]
    rw [max_eq_right (by norm_num)]
  simp only [urlFinalScore, addModelRisk, ageRisk, hlt, if_true, add_zero_twentyFive, mul_59,
    add_25_mul_59, sub_100_risk_59, hmax]

theorem finalScore_failed_100 :
    urlFinalScore (addModelRisk (ageRisk .failed) (.fin 100)) = .fin 40 := by
  have hmax : JSNum.max (.fin 0) (.fin 40) = .fin 40 := by
    simp only [JSNum.max]
    rw [max_eq_right (by norm_num)]
  simp only [urlFinalScore, addModelRisk, ageRisk, mul_100, add_0_60, sub_100_60, hmax]

/-- C2, at the failing input: with a domain half a year old and `risk_score` 59 the URL
scan labels its answer high risk while returning `monaScore` 40; with a failed lookup and
`risk_score` 100 it returns the same `monaScore` 40 under the medium label. -/
theorem status_not_function_of_monaScore :
    (scan youngWorld59 (urlRequest "https://new-shop.example/offer")).result
      = .reply 200 (.obj [("brand", .str "TrustMona"), ("domain", .str "new-shop.example"),
          ("status", .str "🚨 High Scam Risk"), ("monaScore", .num (.fin 40)),
          ("aiRiskLevel", .str "medium"),
          ("reasons", .arr [.str "Very new domain", .str "odd offer"]),
          ("poweredBy", .str "TrustMona AI")]) ∧
    (scan failedWorld100 (urlRequest "https://new-shop.example/offer")).result
      = .reply 200 (.obj [("brand", .str "TrustMona"), ("domain", .str "new-shop.example"),
          ("status", .str "⚠️ Medium Risk"), ("monaScore", .num (.fin 40)),
          ("aiRiskLevel", .str "high"),
          ("reasons", .arr [.str "Domain age unavailable", .str "known scam"]),
          ("poweredBy", .str "TrustMona AI")]) := by
  have hdom : domainOf "https://new-shop.example/offer" = "new-shop.example" := by decide
  have hlt1 : JSNum.lt (.fin (1 / 2)) (.fin 1) = true := by simp [JSNum.lt]; norm_num
  have hlt2 : JSNum.lt (.fin (5573204538870989 / 2 ^ 47)) (.fin 40) = true := by
    simp [JSNum.lt]; norm_num
  have hlt3 : JSNum.lt (.fin 40) (.fin 40) = false := by simp [JSNum.lt]
  have hlt4 : JSNum.lt (.fin 40) (.fin 70) = true := by simp [JSNum.lt]; norm_num
  constructor
  · obtain ⟨level, hl, hreply⟩ := scanReply_of_score youngWorld59 "new-shop.example"
      (.age (.fin (1 / 2))) (signal "medium" 59 ["odd offer"]) (.num (.fin 59))
      (.arr [.str "odd offer"]) (.fin 59) [.str "odd offer"] rfl rfl rfl rfl
    have hlevel : level = .str "medium" := by
      have h : (signal "medium" 59 ["odd offer"]).get "risk_level" = .ok (.str "medium") := rfl
      rw [hl] at h
      exact Except.ok.inj h
    rw [scan_of_string youngWorld59 (urlRequest "https://new-shop.example/offer")
      "https://new-shop.example/offer" rfl (by decide), hdom, lookupAge_youngWorld59]
    unfold youngWorld59 at hreply ⊢
    rw [aiAnalyze_fixedWorld, hreply, hlevel, finalScore_young_59, round_risk_59]
    simp only [statusOf, hlt2, if_true, ageReasons, hlt1, List.singleton_append]
  · obtain ⟨level, hl, hreply⟩ := scanReply_of_score failedWorld100 "new-shop.example"
      .failed (signal "high" 100 ["known scam"]) (.num (.fin 100))
      (.arr [.str "known scam"]) (.fin 100) [.str "known scam"] rfl rfl rfl rfl
    have hlevel : level = .str "high" := by
      have h : (signal "high" 100 ["known scam"]).get "risk_level" = .ok (.str "high") := rfl
      rw [hl] at h
      exact Except.ok.inj h
    have hfound : lookupAge failedWorld100 "new-shop.example" = .failed := rfl
    rw [scan_of_string failedWorld100 (urlRequest "https://new-shop.example/offer")
      "https://new-shop.example/offer" rfl (by decide), hdom, hfound]
    unfold failedWorld100 at hreply ⊢
    rw [aiAnalyze_fixedWorld, hreply, hlevel, finalScore_failed_100, round_40]
    simp only [statusOf, hlt3, hlt4, if_true, ageReasons, List.singleton_append]
    simp

/-! ## C3: the score of the URL scan refines the formula of the specification -/

/-- Rounding after the floor at zero agrees with the floor at zero after rounding. -/
theorem round_max_zero (x : JSNum) :
    (JSNum.max (.fin 0) x).round = JSNum.max (.fin 0) x.round := by
  cases x with
  | nan => rfl
  | negInf =>
    simp only [JSNum.max, JSNum.round]
    norm_num
  | posInf => rfl
  | fin q =>
    simp only [JSNum.max, JSNum.round]
    congr 1
    rcases le_or_lt 0 q with hq | hq
    · have h0 : (0 : ℤ) ≤ ⌊q + 1 / 2⌋ := Int.floor_nonneg.2 (by linarith)
      have h1 : (0 : ℚ) ≤ (⌊q + 1 / 2⌋ : ℤ) := by exact_mod_cast h0
      rw [max_eq_right hq, max_eq_right h1]
    · have h0 : ⌊q + 1 / 2⌋ ≤ (0 : ℤ) := by
        have : ⌊q + 1 / 2⌋ < 0 + 1 := Int.floor_lt.2 (by push_cast; linarith)
        omega
      have h1 : ((⌊q + 1 / 2⌋ : ℤ) : ℚ) ≤ 0 := by exact_mod_cast h0
      have h2 : ⌊(0 : ℚ) + 1 / 2⌋ = 0 := Int.floor_eq_iff.2 ⟨by norm_num, by norm_num⟩
      rw [max_eq_left hq.le, max_eq_left h1, h2]
      norm_num

/-- C3: whatever the domain-age outcome and whatever Number the `risk_score` of the model
signal converts to, a URL scan whose model reasons can be spread answers 200 with a
`monaScore` equal to the `max(0, round(100 - risk))` of the specification. -/
theorem monaScore_eq_specTrustScore (w : World) (body sig v reasons : JSValue) (u : String)
    (r : JSNum) (items : List JSValue) (hu : body.get "url" = .ok (.str u)) (hne : u ≠ "")
    (ha : aiAnalyze w u = sig) (hscore : sig.get "risk_score" = .ok v)
    (hn : toNumber w v = .ok r) (hrs : sig.get "reasons" = .ok reasons)
    (hi : reasons.iterate = .ok items) :
    (scan w body).result.status? = some 200 ∧
      (scan w body).result.field "monaScore"
        = some (.num (specTrustScore (lookupAge w (domainOf u)) r)) := by
  obtain ⟨level, -, hrun⟩ :=
    scan_of_signal w body sig v reasons u r items hu hne ha hscore hn hrs hi
  rw [hrun]
  refine ⟨rfl, ?_⟩
  simp only [Outcome.field, List.lookup, urlFinalScore, addModelRisk, specTrustScore,
    round_max_zero, ageRisk_eq_specAgePenalty]
  rfl

/-- C3, at a domain half a year old and the score 59. -/
theorem monaScore_eq_specTrustScore_witness :
    (scan youngWorld59 (urlRequest "https://new-shop.example/offer")).result.status?
        = some 200 ∧
      (scan youngWorld59 (urlRequest "https://new-shop.example/offer")).result.field
        "monaScore"
        = some (.num (specTrustScore
            (lookupAge youngWorld59 (domainOf "https://new-shop.example/offer")) (.fin 59))) :=
  monaScore_eq_specTrustScore youngWorld59 (urlRequest "https://new-shop.example/offer")
    (signal "medium" 59 ["odd offer"]) (.num (.fin 59)) (.arr [.str "odd offer"])
    "https://new-shop.example/offer" (.fin 59) [.str "odd offer"] rfl (by decide)
    (aiAnalyze_fixedWorld _ _ _ _) rfl rfl rfl rfl

/-! ## C7: the score and the reasons of the text scan -/

/-- C7: for a model signal whose `risk_score` is the Number `r`, the text scan answers 200
with `monaScore` equal to `Math.max(0, 100 - r)`, no domain age and no weighting entering,
and with the `reasons` of the signal as they are; for an integer `r` below `2 ^ 52` in
magnitude the subtraction is exact. -/
theorem scanText_score_and_reasons (w : World) (body message sig : JSValue) (r : JSNum)
    (hm : body.get "message" = .ok message) (ht : message.truthy = true)
    (ha : aiAnalyzeText w message = .ok sig)
    (hscore : sig.get "risk_score" = .ok (.num r)) :
    ∃ level reasons, sig.get "risk_level" = .ok level ∧ sig.get "reasons" = .ok reasons ∧
      (scanText w body).result = .reply 200 (.obj [("brand", .str "TrustMona"),
        ("status", .str (statusOf (JSNum.max (.fin 0) (JSNum.sub (.fin 100) r)))),
        ("monaScore", .num (JSNum.max (.fin 0) (JSNum.sub (.fin 100) r))),
        ("aiRiskLevel", level), ("reasons", reasons), ("type", .str "message_scan"),
        ("poweredBy", .str "TrustMona AI")]) ∧
      ∀ k : ℤ, r = .fin k → |(k : ℚ)| < 2 ^ 52 →
        JSNum.max (.fin 0) (JSNum.sub (.fin 100) r) = .fin ((Max.max 0 (100 - k) : ℤ) : ℚ) := by
  obtain ⟨shown, -, hrun⟩ := scanText_of_signal w body hm ht ha
  obtain ⟨level, reasons, hl, hrs, hreply⟩ := scanTextReply_of_score w sig _ r hscore rfl
  refine ⟨level, reasons, hl, hrs, ?_, ?_⟩
  · rw [hrun, hreply]
    rfl
  · intro k hk hsmall
    subst hk
    have hexact : JSNum.sub (.fin 100) (.fin k) = .fin ((100 - k : ℤ) : ℚ) := by
      have h := JSNum.ofExact_intCast (n := 100 - k) (by
        rw [abs_lt] at hsmall ⊢
        push_cast
        constructor <;> norm_num at hsmall ⊢ <;> linarith)
      simp only [JSNum.sub]
      push_cast at h ⊢
      exact h
    rw [hexact]
    simp only [JSNum.max]
    push_cast
    rfl

/-- C7, at the signal of score 30: `monaScore` is 70 and the reasons are those of the
signal. -/
theorem scanText_score_and_reasons_witness :
    ∃ level reasons,
      (signal "medium" 30 ["unusual link"]).get "risk_level" = .ok level ∧
      (signal "medium" 30 ["unusual link"]).get "reasons" = .ok reasons ∧
      (scanText mediumWorld (textRequest "hello")).result
        = .reply 200 (.obj [("brand", .str "TrustMona"),
          ("status", .str (statusOf (JSNum.max (.fin 0) (JSNum.sub (.fin 100) (.fin 30))))),
          ("monaScore", .num (JSNum.max (.fin 0) (JSNum.sub (.fin 100) (.fin 30)))),
          ("aiRiskLevel", level), ("reasons", reasons), ("type", .str "message_scan"),
          ("poweredBy", .str "TrustMona AI")]) ∧
      JSNum.max (.fin 0) (JSNum.sub (.fin 100) (.fin 30)) = .fin 70 := by
  obtain ⟨level, reasons, h1, h2, h3, h4⟩ :=
    scanText_score_and_reasons mediumWorld (textRequest "hello") (.str "hello")
      (signal "medium" 30 ["unusual link"]) (.fin 30) rfl rfl
      (by simp [aiAnalyzeText, mediumWorld, fixedWorld, toStringJS, bind, Except.bind, pure,
        Except.pure]) rfl
  refine ⟨level, reasons, h1, h2, h3, ?_⟩
  have h5 := h4 30 (by norm_num) (by norm_num [abs_of_pos])
  rw [h5]
  norm_num

/-! ## C9: the reasons of the URL scan -/

/-- C9: a URL scan whose model reasons spread to `items` answers 200 with `reasons` equal
to the domain-age reasons followed by `items`; for an array, `items` are its elements, so
the model reasons follow the domain-age reasons, each once and in their order. -/
theorem scan_reasons_concatenated (w : World) (body sig v reasons : JSValue) (u : String)
    (r : JSNum) (items : List JSValue) (hu : body.get "url" = .ok (.str u)) (hne : u ≠ "")
    (ha : aiAnalyze w u = sig) (hscore : sig.get "risk_score" = .ok v)
    (hn : toNumber w v = .ok r) (hrs : sig.get "reasons" = .ok reasons)
    (hi : reasons.iterate = .ok items) :
    (scan w body).result.status? = some 200 ∧
      (scan w body).result.field "reasons"
        = some (.arr (ageReasons w (lookupAge w (domainOf u)) ++ items)) ∧
      ∀ elements, reasons = .arr elements → items = elements := by
  obtain ⟨level, -, hrun⟩ :=
    scan_of_signal w body sig v reasons u r items hu hne ha hscore hn hrs hi
  rw [hrun]
  refine ⟨rfl, by simp [Outcome.field, List.lookup], ?_⟩
  intro elements he
  subst he
  simpa [JSValue.iterate] using hi.symm

/-- C9, at a domain half a year old: the domain-age reason comes first, the model reason
after it. -/
theorem scan_reasons_concatenated_witness :
    (scan youngWorld59 (urlRequest "https://new-shop.example/offer")).result.status?
        = some 200 ∧
      (scan youngWorld59 (urlRequest "https://new-shop.example/offer")).result.field "reasons"
        = some (.arr (ageReasons youngWorld59
            (lookupAge youngWorld59 (domainOf "https://new-shop.example/offer"))
            ++ [.str "odd offer"])) :=
  have h := scan_reasons_concatenated youngWorld59
    (urlRequest "https://new-shop.example/offer") (signal "medium" 59 ["odd offer"])
    (.num (.fin 59)) (.arr [.str "odd offer"]) "https://new-shop.example/offer" (.fin 59)
    [.str "odd offer"] rfl (by decide) (aiAnalyze_fixedWorld _ _ _ _) rfl rfl rfl rfl
  ⟨h.1, h.2.1⟩

/-! ## C6: the reason given for an absent domain age -/

/-- C6, at the failing input: when the WHOIS answer has no creation date the URL scan
answers 200 with the model reasons alone, no domain-age reason before them; when the
lookup fails, with the same model signal, `"Domain age unavailable"` comes first. -/
theorem no_reason_without_creation_date :
    lookupAge noDateWorld (domainOf "example.com") = .noDate ∧
      (scan noDateWorld (urlRequest "example.com")).result.status? = some 200 ∧
      (scan noDateWorld (urlRequest "example.com")).result.field "reasons"
        = some (.arr [.str "unusual link"]) ∧
      (scan mediumWorld (urlRequest "example.com")).result.field "reasons"
        = some (.arr [.str "Domain age unavailable", .str "unusual link"]) := by
  have hfound : lookupAge noDateWorld (domainOf "example.com") = .noDate := by
    simp [lookupAge, noDateWorld, fixedWorld, whoisWithoutDate, JSValue.get, JSValue.getOpt,
      JSValue.truthy, List.lookup, bind, Except.bind, pure, Except.pure]
  obtain ⟨l1, -, h1⟩ := scan_of_signal noDateWorld (urlRequest "example.com")
    (signal "medium" 30 ["unusual link"]) (.num (.fin 30)) (.arr [.str "unusual link"])
    "example.com" (.fin 30) [.str "unusual link"]
    rfl (by decide) (aiAnalyze_fixedWorld _ _ _ _) rfl rfl rfl rfl
  obtain ⟨l2, -, h2⟩ := scan_of_signal mediumWorld (urlRequest "example.com")
    (signal "medium" 30 ["unusual link"]) (.num (.fin 30)) (.arr [.str "unusual link"])
    "example.com" (.fin 30) [.str "unusual link"]
    rfl (by decide) (aiAnalyze_fixedWorld _ _ _ _) rfl rfl rfl rfl
  have hfailed : lookupAge mediumWorld (domainOf "example.com") = .failed := rfl
  refine ⟨hfound, ?_, ?_, ?_⟩
  · rw [h1]; rfl
  · rw [h1, hfound]
    simp [Outcome.field, List.lookup, ageReasons]
  · rw [h2, hfailed]
    simp [Outcome.field, List.lookup, ageReasons]

/-! ## C4: model output that is valid JSON of another shape -/

/-- C4, at the failing inputs: when the model answers `null`, both handlers end in a
TypeError and send nothing; when it answers an empty object, the text scan answers 200
with a NaN score, the low-risk label and no reasons, and the URL scan ends in a TypeError;
in neither case is the fallback signal used. -/
theorem malformed_shape_not_recovered :
    aiAnalyzeText nullWorld (.str "hello") = .ok .null ∧
      aiAnalyze nullWorld "example.com" = .null ∧
      (scanText nullWorld (textRequest "hello")).result
        = .fault (.typeError "cannot read properties of null") ∧
      (scan nullWorld (urlRequest "example.com")).result
        = .fault (.typeError "cannot read properties of null") ∧
      (scanText emptyObjectWorld (textRequest "hello")).result
        = .reply 200 (.obj [("brand", .str "TrustMona"), ("status", .str "✅ Low Risk"),
            ("monaScore", .num .nan), ("aiRiskLevel", .undefined), ("reasons", .undefined),
            ("type", .str "message_scan"), ("poweredBy", .str "TrustMona AI")]) ∧
      (scan emptyObjectWorld (urlRequest "example.com")).result
        = .fault (.typeError "value is not iterable") := by
  have ha1 : aiAnalyzeText nullWorld (.str "hello") = .ok .null := by
    simp [aiAnalyzeText, nullWorld, fixedWorld, toStringJS, bind, Except.bind, pure,
      Except.pure]
  have ha2 : aiAnalyzeText emptyObjectWorld (.str "hello") = .ok (.obj []) := by
    simp [aiAnalyzeText, emptyObjectWorld, fixedWorld, toStringJS, bind, Except.bind, pure,
      Except.pure]
  refine ⟨ha1, aiAnalyze_fixedWorld _ _ _ _, ?_, ?_, ?_, ?_⟩
  · obtain ⟨shown, -, hrun⟩ :=
      scanText_of_signal nullWorld (textRequest "hello") rfl rfl ha1
    rw [hrun]
    rfl
  · rw [scan_of_string nullWorld (urlRequest "example.com") "example.com" rfl
      (by decide)]
    unfold nullWorld
    rw [aiAnalyze_fixedWorld]
    rfl
  · obtain ⟨shown, -, hrun⟩ :=
      scanText_of_signal emptyObjectWorld (textRequest "hello") rfl rfl ha2
    rw [hrun]
    simp [scanTextReply, JSValue.get, List.lookup, toNumber, textFinalScore, JSNum.sub,
      JSNum.max, statusOf, JSNum.lt, bind, Except.bind, pure, Except.pure]
  · rw [scan_of_string emptyObjectWorld (urlRequest "example.com") "example.com" rfl
      (by decide)]
    unfold emptyObjectWorld
    rw [aiAnalyze_fixedWorld]
    simp [scanReply, JSValue.get, List.lookup, toNumber, JSValue.iterate, bind, Except.bind,
      pure, Except.pure]

/-! ## C5: the fallback signal -/

theorem textFinalScore_forty : textFinalScore (.fin 40) = .fin 60 := by
  have h := JSNum.ofExact_intCast (n := 60) (by norm_num [abs_of_pos])
  have hsub : JSNum.sub (.fin 100) (.fin 40) = .fin 60 := by
    simp only [JSNum.sub]
    norm_num at h ⊢
    exact h
  simp only [textFinalScore, hsub, JSNum.max]
  rw [max_eq_right (by norm_num)]

theorem statusOf_sixty : statusOf (.fin 60) = "⚠️ Medium Risk" := by
  have h1 : JSNum.lt (.fin 60) (.fin 40) = false := by simp [JSNum.lt]; norm_num
  have h2 : JSNum.lt (.fin 60) (.fin 70) = true := by simp [JSNum.lt]; norm_num
  simp [statusOf, h1, h2]

/-- C5: when the completion request throws, or `JSON.parse` throws on the trimmed content,
`aiAnalyzeText` returns exactly the signal of level medium, score 40 and one cause, and
`aiAnalyze` the one of level medium, score 30 and one cause; the text scan then answers
200 with `monaScore` 60 under the medium label. -/
theorem fallback_signal_on_failure (w : World) :
    (∀ message shown, toStringJS w message = .ok shown →
      ((∃ e, w.chatText shown = .error e) ∨
        ∃ content, w.chatText shown = .ok content ∧ w.jsonParse (jsTrim content) = none) →
      ∃ cause, aiAnalyzeText w message = .ok (.obj [("risk_level", .str "medium"),
          ("risk_score", .num (.fin 40)), ("reasons", .arr [.str cause])]) ∧
        ∀ body, body.get "message" = .ok message → message.truthy = true →
          (scanText w body).result = .reply 200 (.obj [("brand", .str "TrustMona"),
            ("status", .str "⚠️ Medium Risk"), ("monaScore", .num (.fin 60)),
            ("aiRiskLevel", .str "medium"), ("reasons", .arr [.str cause]),
            ("type", .str "message_scan"), ("poweredBy", .str "TrustMona AI")])) ∧
    (∀ url, ((∃ e, w.chatUrl url = .error e) ∨
        ∃ content, w.chatUrl url = .ok content ∧ w.jsonParse (jsTrim content) = none) →
      ∃ cause, aiAnalyze w url = .obj [("risk_level", .str "medium"),
        ("risk_score", .num (.fin 30)), ("reasons", .arr [.str cause])]) := by
  constructor
  · intro message shown hs hfail
    have key : ∃ cause, aiAnalyzeText w message = .ok (fallbackSignal 40 cause) := by
      rcases hfail with ⟨e, he⟩ | ⟨content, hc, hp⟩
      · exact ⟨"AI service unavailable", by
          simp [aiAnalyzeText, hs, he, bind, Except.bind, pure, Except.pure]⟩
      · exact ⟨"AI output could not be parsed", by
          simp [aiAnalyzeText, hs, hc, hp, bind, Except.bind, pure, Except.pure]⟩
    obtain ⟨cause, ha⟩ := key
    refine ⟨cause, ha, fun body hm ht => ?_⟩
    obtain ⟨shown', -, hrun⟩ := scanText_of_signal w body hm ht ha
    obtain ⟨level, reasons, hl, hrs, hreply⟩ :=
      scanTextReply_of_score w (fallbackSignal 40 cause) (.num (.fin 40)) (.fin 40) rfl rfl
    have hlevel : level = .str "medium" := by
      have h : (fallbackSignal 40 cause).get "risk_level" = .ok (.str "medium") := rfl
      rw [hl] at h
      exact Except.ok.inj h
    have hreasons : reasons = .arr [.str cause] := by
      have h : (fallbackSignal 40 cause).get "reasons" = .ok (.arr [.str cause]) := rfl
      rw [hrs] at h
      exact Except.ok.inj h
    rw [hrun, hreply, hlevel, hreasons, textFinalScore_forty, statusOf_sixty]
  · intro url hfail
    rcases hfail with ⟨e, he⟩ | ⟨content, hc, hp⟩
    · exact ⟨"AI API request failed", by simp [aiAnalyze, he, fallbackSignal]⟩
    · exact ⟨"AI output parse failed", by simp [aiAnalyze, hc, hp, fallbackSignal]⟩

/-- C5, at a request that throws (text scan) and at a model answer in prose (URL helper). -/
theorem fallback_signal_on_failure_witness :
    (∃ cause, aiAnalyzeText unavailableWorld (.str "hello")
        = .ok (.obj [("risk_level", .str "medium"), ("risk_score", .num (.fin 40)),
          ("reasons", .arr [.str cause])]) ∧
      (scanText unavailableWorld (textRequest "hello")).result
        = .reply 200 (.obj [("brand", .str "TrustMona"),
          ("status", .str "⚠️ Medium Risk"), ("monaScore", .num (.fin 60)),
          ("aiRiskLevel", .str "medium"), ("reasons", .arr [.str cause]),
          ("type", .str "message_scan"), ("poweredBy", .str "TrustMona AI")])) ∧
      (∃ cause, aiAnalyze proseWorld "example.com" = .obj [("risk_level", .str "medium"),
        ("risk_score", .num (.fin 30)), ("reasons", .arr [.str cause])]) := by
  constructor
  · obtain ⟨cause, h1, h2⟩ := (fallback_signal_on_failure unavailableWorld).1 (.str "hello")
      "hello" rfl (Or.inl ⟨"connect ETIMEDOUT", rfl⟩)
    exact ⟨cause, h1, h2 (textRequest "hello") rfl rfl⟩
  · exact (fallback_signal_on_failure proseWorld).2 "example.com"
      (Or.inr ⟨"This link looks suspicious.", rfl, by simp [proseWorld, fixedWorld]⟩)

/-! ## C10: validation of the request -/

/-- C10: a URL scan whose `url` is falsy, in particular missing (`undefined`) or the empty
string, answers 400 with the error `"URL required"`, and a text scan whose `message` is
falsy answers 400 with the error `"Message text required"`; neither makes a provider
request and neither body carries a score. -/
theorem validation_rejects_missing_input (w : World) (body v : JSValue)
    (hv : v.truthy = false) :
    (body.get "url" = .ok v →
      scan w body = ⟨[], .reply 400 (.obj [("error", .str "URL required")])⟩) ∧
    (body.get "message" = .ok v →
      scanText w body = ⟨[], .reply 400 (.obj [("error", .str "Message text required")])⟩) := by
  constructor
  · intro h
    simp [scan, h, hv, errorBody]
  · intro h
    simp [scanText, h, hv, errorBody]

/-- C10, at a body without the field and at a body with the empty string. -/
theorem validation_rejects_missing_input_witness :
    scan mediumWorld (.obj []) = ⟨[], .reply 400 (.obj [("error", .str "URL required")])⟩ ∧
      scan mediumWorld (urlRequest "")
        = ⟨[], .reply 400 (.obj [("error", .str "URL required")])⟩ ∧
      scanText mediumWorld (.obj [])
        = ⟨[], .reply 400 (.obj [("error", .str "Message text required")])⟩ ∧
      scanText mediumWorld (textRequest "")
        = ⟨[], .reply 400 (.obj [("error", .str "Message text required")])⟩ :=
  ⟨(validation_rejects_missing_input mediumWorld (.obj []) .undefined rfl).1 rfl,
    (validation_rejects_missing_input mediumWorld (urlRequest "") (.str "") rfl).1 rfl,
    (validation_rejects_missing_input mediumWorld (.obj []) .undefined rfl).2 rfl,
    (validation_rejects_missing_input mediumWorld (textRequest "") (.str "") rfl).2 rfl⟩

/-! ## C8: extraction of the domain -/

theorem splitSlash_ne_nil (cs : List Char) : splitSlash cs ≠ [] := by
  cases cs with
  | nil => simp [splitSlash]
  | cons c cs =>
    simp only [splitSlash]
    split_ifs
    · simp
    · split <;> simp

theorem splitSlash_of_no_slash (cs : List Char) (h : '/' ∉ cs) : splitSlash cs = [cs] := by
  induction cs with
  | nil => rfl
  | cons c cs ih =>
    have hc : c ≠ '/' := fun e => h (by simp [e])
    have hcs : '/' ∉ cs := fun e => h (by simp [e])
    simp [splitSlash, hc, ih hcs]

theorem splitSlash_head_append (host rest : List Char) (h : '/' ∉ host) :
    (splitSlash (host ++ '/' :: rest)).head? = some host := by
  induction host with
  | nil => simp [splitSlash]
  | cons c cs ih =>
    have hc : c ≠ '/' := fun e => h (by simp [e])
    have hcs : '/' ∉ cs := fun e => h (by simp [e])
    have := ih hcs
    simp only [List.cons_append, splitSlash, hc, if_false]
    cases hsplit : splitSlash (cs ++ '/' :: rest) with
    | nil => exact absurd hsplit (splitSlash_ne_nil _)
    | cons seg segs =>
      rw [hsplit] at this
      simp at this
      simp [this]

theorem splitSlash_head_no_slash (cs : List Char) :
    ∀ seg, (splitSlash cs).head? = some seg → '/' ∉ seg := by
  induction cs with
  | nil =>
    intro seg h
    simp [splitSlash] at h
    subst h
    simp
  | cons c cs ih =>
    intro seg h
    by_cases hc : c = '/'
    · simp [splitSlash, hc] at h
      subst h
      simp
    · simp only [splitSlash, hc, if_false] at h
      cases hsplit : splitSlash cs with
      | nil => exact absurd hsplit (splitSlash_ne_nil _)
      | cons s ss =>
        rw [hsplit] at h
        simp at h
        have hs := ih s (by simp [hsplit])
        rw [← h]
        simp only [List.mem_cons, not_or]
        exact ⟨fun e => hc e.symm, hs⟩

theorem stripScheme_of_no_slash (cs : List Char) (h : '/' ∉ cs) : stripScheme cs = cs := by
  unfold stripScheme
  split
  · exact absurd (by simp) h
  · exact absurd (by simp) h
  · rfl

theorem stripScheme_https (rest : List Char) : stripScheme ("https://".data ++ rest) = rest :=
  rfl

theorem stripScheme_http (rest : List Char) : stripScheme ("http://".data ++ rest) = rest := by
  show stripScheme ('h' :: 't' :: 't' :: 'p' :: ':' :: '/' :: '/' :: rest) = rest
  unfold stripScheme
  split
  · rename_i heq
    simp at heq
  · rename_i heq
    simp at heq
    exact heq.symm
  · rename_i hne1 hne2
    exact absurd rfl (hne2 rest)

theorem domainOf_of_head {url : String} {host : List Char}
    (h : (splitSlash (stripScheme url.data)).head? = some host) :
    domainOf url = String.mk host := by
  simp [domainOf, domainOf?, h]

/-- C8: for a host without a slash and any path, the domain of `https://host/path`, of
`http://host/path` and of the host alone is the host itself, case kept; and the domain of
any URL holds no slash. -/
theorem domainOf_host (host path : String) (hhost : '/' ∉ host.data) :
    domainOf ("https://" ++ host ++ "/" ++ path) = host ∧
      domainOf ("http://" ++ host ++ "/" ++ path) = host ∧
      domainOf host = host ∧
      ∀ url : String, '/' ∉ (domainOf url).data := by
  have hslash : "/".data = ['/'] := rfl
  refine ⟨?_, ?_, ?_, ?_⟩
  · apply domainOf_of_head
    simp only [String.data_append, List.append_assoc, stripScheme_https, hslash,
      List.singleton_append]
    exact splitSlash_head_append _ _ hhost
  · apply domainOf_of_head
    simp only [String.data_append, List.append_assoc, stripScheme_http, hslash,
      List.singleton_append]
    exact splitSlash_head_append _ _ hhost
  · apply domainOf_of_head
    rw [stripScheme_of_no_slash _ hhost, splitSlash_of_no_slash _ hhost]
    rfl
  · intro url
    cases hsplit : (splitSlash (stripScheme url.data)).head? with
    | none =>
      simp [domainOf, domainOf?, hsplit]
    | some seg =>
      rw [domainOf_of_head hsplit]
      exact splitSlash_head_no_slash _ seg hsplit

/-- C8, at the two examples of the specification. -/
theorem domainOf_host_witness :
    domainOf "https://Example.com/path" = "Example.com" ∧
      domainOf "http://Example.com/path" = "Example.com" ∧
      domainOf "Example.com" = "Example.com" ∧
      domainOf "example.com" = "example.com" :=
  ⟨(domainOf_host "Example.com" "path" (by decide)).1,
    (domainOf_host "Example.com" "path" (by decide)).2.1,
    (domainOf_host "Example.com" "path" (by decide)).2.2.1,
    (domainOf_host "example.com" "" (by decide)).2.2.1⟩

end TrustMona
